import Mathlib

/-!
# Verification of the autoPlant repository's scheduler / parser / normalizer core

Shallow embedding of the parts of `autoMowan.py` and `autoPlant.py` that the
specification's testable properties are about:

* the countdown parser `parse_countdown_text` (strict `H(H):MM:SS` regex search
  plus the loose digit-run fallback),
* the wait normalizer `_normalize_wait` / `normalize_wait_seconds`,
* one iteration of `scheduler_loop` (task selection, run / recheck / sleep),
* the session wrappers `run_cleaning_session` / `run_brick_session`
  (normalization of the opportunistic sibling countdown reading),
* the drop-drain loop `click_drops`,
* `is_mature` / `harvest_mature_plots`,
* the scheduling tail of `run_once` in `autoPlant.py`.

Modelling conventions: Python text is `List Char` (Unicode scalar values, like
Python `str` code points); Python `\d` is modelled as the ASCII digit class
(`Char.isDigit`), and `str.strip()` as stripping `Char.isWhitespace` characters
from both ends — for every property below only the stripped/kept boundary
characters being non-digits matters, so the exact whitespace table is
irrelevant.  Python ints are `Int`, wall-clock timestamps are `Int` seconds,
`time.sleep d` advances the modelled clock by exactly `d`.  Page interactions
are modelled by oracle inputs (what the page would return / whether a click
succeeds).  Log output (`log(...)`, the `reason` strings) carries no data flow
and is dropped.
-/

namespace AutoMowan

/-! ## Configuration constants (`autoMowan.py`, defaults of the env-tunables) -/

def STATUS_RECHECK_INTERVAL_SEC : Int := 3600
def DEFAULT_NEXT_INTERVAL_SEC : Int := 2 * 3600
def BRICK_DEFAULT_INTERVAL_SEC : Int := 24 * 3600
def BRICK_RECHECK_INTERVAL_SEC : Int := 6 * 3600
def MIN_WAIT_AFTER_CHECK_SEC : Int := 30

/-! ## Countdown parser (`parse_countdown_text`, `COUNTDOWN_RE`) -/

/-- Numeric value of an ASCII digit character. -/
def digitVal (c : Char) : Nat := c.toNat - '0'.toNat

/-- Match `(\d{1,2}):(\d{2}):(\d{2})` at the head of the text with a
two-digit hour (the greedy first attempt of `\d{1,2}`). -/
def match2 : List Char → Option (Nat × Nat × Nat)
  | d1 :: d2 :: c1 :: m1 :: m2 :: c2 :: s1 :: s2 :: _ =>
    if d1.isDigit && d2.isDigit && (c1 == ':') && m1.isDigit && m2.isDigit
        && (c2 == ':') && s1.isDigit && s2.isDigit then
      some (10 * digitVal d1 + digitVal d2,
            10 * digitVal m1 + digitVal m2,
            10 * digitVal s1 + digitVal s2)
    else none
  | _ => none

/-- Match `(\d{1,2}):(\d{2}):(\d{2})` at the head of the text with a
one-digit hour (the backtracked second attempt of `\d{1,2}`). -/
def match1 : List Char → Option (Nat × Nat × Nat)
  | d1 :: c1 :: m1 :: m2 :: c2 :: s1 :: s2 :: _ =>
    if d1.isDigit && (c1 == ':') && m1.isDigit && m2.isDigit
        && (c2 == ':') && s1.isDigit && s2.isDigit then
      some (digitVal d1,
            10 * digitVal m1 + digitVal m2,
            10 * digitVal s1 + digitVal s2)
    else none
  | _ => none

/-- Try to match `COUNTDOWN_RE` at this position: greedy two-digit hour first,
then backtrack to a one-digit hour (the tail `:\d{2}:\d{2}` is deterministic,
so this is exactly the regex engine's backtracking order). -/
def matchAt (cs : List Char) : Option (Nat × Nat × Nat) :=
  match match2 cs with
  | some r => some r
  | none => match1 cs

/-- `COUNTDOWN_RE.search`: scan positions left to right, return the captured
groups of the leftmost match. -/
def searchCountdown : List Char → Option (Nat × Nat × Nat)
  | [] => none
  | c :: cs =>
    match matchAt (c :: cs) with
    | some r => some r
    | none => searchCountdown cs

/-- `re.findall(r"\d+", text)` followed by `int(..)` on each run:
`digitRunsAux cs acc inRun` scans `cs`, with `acc` the value of the digit run
currently being read when `inRun` is true. -/
def digitRunsAux : List Char → Nat → Bool → List Nat
  | [], acc, inRun => if inRun then [acc] else []
  | c :: cs, acc, inRun =>
    if c.isDigit then
      digitRunsAux cs (10 * (if inRun then acc else 0) + digitVal c) true
    else
      if inRun then acc :: digitRunsAux cs 0 false
      else digitRunsAux cs 0 false

/-- The maximal digit runs of the text, as numbers, in order. -/
def digitRuns (cs : List Char) : List Nat := digitRunsAux cs 0 false

/-- Python `str.strip()`: drop whitespace from both ends. -/
def pyStrip (cs : List Char) : List Char :=
  ((cs.dropWhile Char.isWhitespace).reverse.dropWhile Char.isWhitespace).reverse

/-- `parse_countdown_text(text)`.  `none` is Python `None`; the `cs = []`
test is the falsy branch of `if not text` for the empty string. -/
def parse_countdown_text : Option (List Char) → Option Nat
  | none => none
  | some cs =>
    if cs = [] then none
    else
      let t := pyStrip cs
      match searchCountdown t with
      | some (h, m, s) => some (h * 3600 + m * 60 + s)
      | none =>
        match digitRuns t with
        | h :: m :: s :: _ => some (h * 3600 + m * 60 + s)
        | _ => none

/-! ## Wait normalizer (`_normalize_wait`, `normalize_wait_seconds`) -/

/-- `_normalize_wait(seconds, reason, fallback)`; the `reason` parameter only
feeds the log line and is dropped. -/
def normalize_wait (seconds : Option Int) (fallback : Int) : Int :=
  let s : Int :=
    match seconds with
    | none => fallback
    | some v => v
  max s MIN_WAIT_AFTER_CHECK_SEC

/-- `normalize_wait_seconds(seconds, reason)`. -/
def normalize_wait_seconds (seconds : Option Int) : Int :=
  normalize_wait seconds DEFAULT_NEXT_INTERVAL_SEC

/-! ## Sessions (`run_cleaning_session`, `run_brick_session`)

A session's page interactions are summarized by what the two countdown reads
return (`read_countdown_seconds` / `read_brick_countdown_seconds`, `none` on a
missing or unparsable countdown).  Only the returned pair
(own wait, optional sibling wait) feeds back into the scheduler. -/

/-- `run_cleaning_session()` given the two countdown readings taken just
before the browser is closed: the clean wait is always normalized; the
opportunistic brick reading is normalized only when fresh, else `None`. -/
def run_cleaning_session (next_seconds brick_seconds : Option Int) : Int × Option Int :=
  (normalize_wait_seconds next_seconds,
   match brick_seconds with
   | some b => some (normalize_wait (some b) BRICK_DEFAULT_INTERVAL_SEC)
   | none => none)

/-- `run_brick_session()` given the two countdown readings. -/
def run_brick_session (next_seconds clean_seconds : Option Int) : Int × Option Int :=
  (normalize_wait next_seconds BRICK_DEFAULT_INTERVAL_SEC,
   match clean_seconds with
   | some c => some (normalize_wait_seconds (some c))
   | none => none)

/-! ## Scheduler loop (`scheduler_loop`)

One iteration of the `while True` body, as a step function on the scheduler's
state.  All timestamps are `Int` seconds; `time.sleep d` advances `now` by
exactly `d`; the wall time a session or probe itself consumes is an oracle
(`cleanDur` / `brickDur` / `probeDur`). -/

structure SchedState where
  now : Int
  nextCleanAt : Int
  nextBrickAt : Int
deriving DecidableEq, Repr

/-- What the loop does in one iteration (the part visible to the spec's
liveness property): run a task's session, sleep the recheck interval and
re-probe, or sleep the remaining time. -/
inductive SchedAction where
  | runClean : SchedAction
  | runBrick : SchedAction
  | sleepRecheck : Int → SchedAction
  | sleepRemain : Int → SchedAction
deriving DecidableEq, Repr

/-- Oracle inputs for one iteration: countdown readings returned by the page
and the wall time consumed by each kind of page visit. -/
structure SchedEnv where
  cleanDur : Int
  cleanOwn : Option Int
  cleanSibling : Option Int
  brickDur : Int
  brickOwn : Option Int
  brickSibling : Option Int
  probeDur : Int
  probeSeconds : Option Int
deriving DecidableEq, Repr

/-- The `task == "clean"`, `remaining <= 0` branch:
`clean_wait, maybe_brick = run_cleaning_session(); next_clean_at = time.time()
+ clean_wait; if maybe_brick is not None: next_brick_at = time.time() +
maybe_brick`.  The two `time.time()` calls are modelled as the same instant. -/
def runCleanStep (env : SchedEnv) (s : SchedState) : SchedState :=
  let res := run_cleaning_session env.cleanOwn env.cleanSibling
  let now2 := s.now + env.cleanDur
  { now := now2,
    nextCleanAt := now2 + res.1,
    nextBrickAt :=
      match res.2 with
      | some b => now2 + b
      | none => s.nextBrickAt }

/-- The `task == "brick"`, `remaining <= 0` branch. -/
def runBrickStep (env : SchedEnv) (s : SchedState) : SchedState :=
  let res := run_brick_session env.brickOwn env.brickSibling
  let now2 := s.now + env.brickDur
  { now := now2,
    nextBrickAt := now2 + res.1,
    nextCleanAt :=
      match res.2 with
      | some c => now2 + c
      | none => s.nextCleanAt }

/-- `time.sleep(recheck); clean_wait = fetch_countdown_wait(..); next_clean_at
= time.time() + clean_wait`. -/
def recheckCleanStep (rc : Int) (env : SchedEnv) (s : SchedState) : SchedState :=
  let now2 := s.now + rc + env.probeDur
  { now := now2,
    nextCleanAt := now2 + normalize_wait_seconds env.probeSeconds,
    nextBrickAt := s.nextBrickAt }

/-- `time.sleep(recheck); brick_wait = fetch_brick_countdown_wait(..);
next_brick_at = time.time() + brick_wait`. -/
def recheckBrickStep (rb : Int) (env : SchedEnv) (s : SchedState) : SchedState :=
  let now2 := s.now + rb + env.probeDur
  { now := now2,
    nextBrickAt := now2 + normalize_wait env.probeSeconds BRICK_DEFAULT_INTERVAL_SEC,
    nextCleanAt := s.nextCleanAt }

/-- One iteration of the body of `scheduler_loop`'s `while True`.  `rc` and
`rb` are `STATUS_RECHECK_INTERVAL_SEC` and `BRICK_RECHECK_INTERVAL_SEC`
(env-tunable in the source, hence parameters). -/
def schedStep (rc rb : Int) (env : SchedEnv) (s : SchedState) : SchedState × SchedAction :=
  let remaining : Int :=
    if s.nextCleanAt ≤ s.nextBrickAt then s.nextCleanAt - s.now else s.nextBrickAt - s.now
  if remaining ≤ 0 then
    if s.nextCleanAt ≤ s.nextBrickAt then
      (runCleanStep env s, SchedAction.runClean)
    else
      (runBrickStep env s, SchedAction.runBrick)
  else
    let recheck : Int := if s.nextCleanAt ≤ s.nextBrickAt then rc else rb
    if recheck < remaining then
      (if s.nextCleanAt ≤ s.nextBrickAt then recheckCleanStep rc env s
       else recheckBrickStep rb env s,
       SchedAction.sleepRecheck recheck)
    else
      ({ s with now := s.now + max remaining 1 }, SchedAction.sleepRemain (max remaining 1))

/-! ## Drop drain (`click_drops`)

The page's drop list is a list of items; each carries the text the
best-effort `inner_text` read would return and whether clicking it succeeds.
A successful click consumes the item (the list's first element); a failed
click (timeout / detachment error, caught and logged) leaves the list as it
is.  The loop body always targets `items.first` and runs exactly
`items.count()` times (`for i in range(count)`), counted once up front. -/

structure DropItem where
  text : String
  clickOk : Bool
deriving DecidableEq, Repr

/-- The `for i in range(count)` body, with the remaining iteration count as
fuel.  Returns the remaining list and the texts of the successfully clicked
items, in click order. -/
def clickDropsLoop : Nat → List DropItem → List DropItem × List String
  | 0, items => (items, [])
  | _ + 1, [] => ([], [])
  | n + 1, it :: rest =>
    if it.clickOk then
      let r := clickDropsLoop n rest
      (r.1, it.text :: r.2)
    else
      clickDropsLoop n (it :: rest)

/-- `click_drops(page)`: count once, then loop that many times. -/
def click_drops (items : List DropItem) : List DropItem × List String :=
  clickDropsLoop items.length items

end AutoMowan

namespace AutoPlant

/-! ## `autoPlant.py`: harvest executor and `run_once` scheduling -/

/-- Scheduling constants of `autoPlant.py`. -/
def SAFETY_BUFFER_SEC : Int := -5
def MIN_WAKE_INTERVAL_SEC : Int := 10
def FALLBACK_INTERVAL_SEC : Int := 300

/-- A planted plot as the harvest pass sees it: the `data-harvest-time`
attribute (`none` when the attribute is absent, empty, or unparsable — all of
which make `is_mature`'s `bool(t) and int(t) <= now` falsy or raise into the
`except` arm) and whether the 4-second-timeout click on its selector
succeeds. -/
structure Plot where
  harvestTime : Option Int
  clickOk : Bool
deriving DecidableEq, Repr

/-- `is_mature(el)` at wall time `now`:
`t = el.get_attribute("data-harvest-time"); return bool(t) and int(t) <= int(time.time())`. -/
def is_mature (now : Int) (p : Plot) : Bool :=
  match p.harvestTime with
  | some t => decide (t ≤ now)
  | none => false

/-- The first pass of `harvest_mature_plots`: collect the selectors of the
mature planted plots, in order. -/
def collectMature (now : Int) : List Plot → List Plot
  | [] => []
  | p :: ps =>
    if is_mature now p then p :: collectMature now ps else collectMature now ps

/-- The second pass: click each collected plot, catching any per-click
exception and moving on; record each click's outcome. -/
def clickEach : List Plot → List Bool
  | [] => []
  | p :: ps => p.clickOk :: clickEach ps

/-- `harvest_mature_plots(page)` at wall time `now`: returns
`len(mature_selectors)` together with the sequence of per-plot click
outcomes. -/
def harvest_mature_plots (now : Int) (plots : List Plot) : Nat × List Bool :=
  let mature := collectMature now plots
  (mature.length, clickEach mature)

/-- The scheduling tail of `run_once()` (after the browser is closed), in
milliseconds: `next_ts` from `get_next_harvest_ts` (0 when no future plot)
and `now_ms = int(time.time() * 1000)`.  Python's `int(delay_ms / 1000)`
truncates; `delay_ms` is always positive here, so `Int` division (toward
minus infinity) agrees. -/
def run_once_wait (next_ts now_ms : Int) : Int :=
  if next_ts ≠ 0 ∧ next_ts * 1000 > now_ms then
    max (next_ts * 1000 - now_ms - SAFETY_BUFFER_SEC * 1000) (MIN_WAKE_INTERVAL_SEC * 1000)
      / 1000
  else
    FALLBACK_INTERVAL_SEC * 1000 / 1000

end AutoPlant

namespace AutoMowan

/-! ## Spec-side predicate for claim C2

A "valid `H:MM:SS` / `HH:MM:SS` string": hours of one or two digits, then a
colon, two minute digits, a colon, two second digits — written from the
spec's words, to state what "the text contains a valid countdown substring"
means independently of the regex embedding above. -/

def ValidHMS (v : List Char) : Prop :=
  (∃ d1 d2 m1 m2 s1 s2 : Char,
      v = [d1, d2, ':', m1, m2, ':', s1, s2] ∧
      d1.isDigit = true ∧ d2.isDigit = true ∧ m1.isDigit = true ∧
      m2.isDigit = true ∧ s1.isDigit = true ∧ s2.isDigit = true) ∨
  (∃ d1 m1 m2 s1 s2 : Char,
      v = [d1, ':', m1, m2, ':', s1, s2] ∧
      d1.isDigit = true ∧ m1.isDigit = true ∧
      m2.isDigit = true ∧ s1.isDigit = true ∧ s2.isDigit = true)

end AutoMowan

section Sanity
open AutoMowan

example : parse_countdown_text (some ("剩余 01:02:03 请稍候".toList)) = some 3723 := by decide
example : parse_countdown_text (some ("3 时 05 分 10 秒".toList)) = some 11110 := by decide
example : parse_countdown_text (some ("加载中".toList)) = none := by decide
example : parse_countdown_text (some ("123:45:67".toList)) = some (23 * 3600 + 45 * 60 + 67) := by
  decide
example : normalize_wait (some 0) 7200 = 30 := by decide
example : normalize_wait none 5 = 30 := by decide

end Sanity

namespace AutoMowan

/-! ## Claims about the wait normalizer (C3, C4) -/

/-- C3: for every input duration (including absent and zero) and every
fallback, `_normalize_wait`'s output is at least the configured minimum wait
floor `MIN_WAIT_AFTER_CHECK_SEC = 30`. -/
theorem normalize_wait_ge_floor (seconds : Option Int) (fallback : Int) :
    MIN_WAIT_AFTER_CHECK_SEC ≤ normalize_wait seconds fallback := by
  unfold normalize_wait
  cases seconds <;> exact le_max_right _ _

/-- C4: on an absent (`None`) duration, `_normalize_wait` returns exactly the
fallback when the fallback is at least the floor, and exactly the floor when
the fallback is below it. -/
theorem normalize_wait_unknown (fallback : Int) :
    (MIN_WAIT_AFTER_CHECK_SEC ≤ fallback → normalize_wait none fallback = fallback) ∧
    (fallback < MIN_WAIT_AFTER_CHECK_SEC →
      normalize_wait none fallback = MIN_WAIT_AFTER_CHECK_SEC) := by
  constructor
  · intro h
    simp [normalize_wait, max_eq_left h]
  · intro h
    simp [normalize_wait, max_eq_right (le_of_lt h)]

/-- C4 witness: fallback 7200 (≥ floor) is returned as-is; fallback 5
(< floor) is raised to 30. -/
theorem normalize_wait_unknown_witness :
    normalize_wait none 7200 = 7200 ∧ normalize_wait none 5 = 30 :=
  ⟨(normalize_wait_unknown 7200).1 (by decide), (normalize_wait_unknown 5).2 (by decide)⟩

/-! ## Claims about the countdown parser's fallback and unknown cases (C5, C6) -/

/-- C5: on text with no strict `H(H):MM:SS` match but at least three digit
runs, the parser interprets the first three runs as hours, minutes, seconds
and returns `h*3600 + m*60 + s`. -/
theorem parse_digit_fallback (cs : List Char) (h m s : Nat) (rest : List Nat)
    (hsearch : searchCountdown (pyStrip cs) = none)
    (hdr : digitRuns (pyStrip cs) = h :: m :: s :: rest) :
    parse_countdown_text (some cs) = some (h * 3600 + m * 60 + s) := by
  have hne : cs ≠ [] := by
    rintro rfl
    simp [pyStrip, digitRuns, digitRunsAux] at hdr
  simp only [parse_countdown_text, if_neg hne, hsearch, hdr]

/-- C5 witness: `"3 时 05 分 10 秒"` parses to `3*3600 + 5*60 + 10 = 11110`. -/
theorem parse_digit_fallback_witness :
    parse_countdown_text (some ("3 时 05 分 10 秒".toList)) = some 11110 :=
  parse_digit_fallback _ 3 5 10 [] (by decide) (by decide)

/-- C6: on an absent input (`None` or the empty string), and on any text with
no strict match and fewer than three digit runs, the parser returns the
distinct "unknown" value `None` (and, being a total function of its input, it
raises on no input). -/
theorem parse_countdown_unknown :
    parse_countdown_text none = none ∧
    parse_countdown_text (some []) = none ∧
    ∀ cs : List Char, searchCountdown (pyStrip cs) = none →
      (digitRuns (pyStrip cs)).length < 3 →
      parse_countdown_text (some cs) = none := by
  refine ⟨rfl, rfl, ?_⟩
  intro cs hsearch hlen
  by_cases hne : cs = []
  · subst hne; rfl
  · simp only [parse_countdown_text, if_neg hne, hsearch]
    rcases hdr : digitRuns (pyStrip cs) with _ | ⟨a, _ | ⟨b, _ | ⟨c, rest⟩⟩⟩
    · rfl
    · rfl
    · rfl
    · rw [hdr] at hlen
      simp at hlen
      omega

/-- C6 witness: `"加载中"` (no match, no digit runs) yields unknown. -/
theorem parse_countdown_unknown_witness :
    parse_countdown_text (some ("加载中".toList)) = none :=
  parse_countdown_unknown.2.2 _ (by decide) (by decide)

/-! ## Claim about the sibling schedule update after a session (C7) -/

/-- C7: when a session completes, the sibling task's next-due timestamp is
set to now plus the normalized sibling duration exactly when the session
obtained a fresh (non-`None`) sibling countdown reading; on an unknown
sibling reading the sibling's next-due timestamp is left unchanged by the
Run step.  Stated for both the cleaning and the brick session. -/
theorem run_session_sibling_update (env : SchedEnv) (s : SchedState) :
    (∀ b : Int, env.cleanSibling = some b →
      (runCleanStep env s).nextBrickAt =
        s.now + env.cleanDur + normalize_wait (some b) BRICK_DEFAULT_INTERVAL_SEC) ∧
    (env.cleanSibling = none → (runCleanStep env s).nextBrickAt = s.nextBrickAt) ∧
    (∀ c : Int, env.brickSibling = some c →
      (runBrickStep env s).nextCleanAt =
        s.now + env.brickDur + normalize_wait_seconds (some c)) ∧
    (env.brickSibling = none → (runBrickStep env s).nextCleanAt = s.nextCleanAt) := by
  refine ⟨?_, ?_, ?_, ?_⟩
  · intro b hb
    simp [runCleanStep, run_cleaning_session, hb]
  · intro hb
    simp [runCleanStep, run_cleaning_session, hb]
  · intro c hc
    simp [runBrickStep, run_brick_session, hc]
  · intro hc
    simp [runBrickStep, run_brick_session, hc]

/-- C7 witness: with a fresh sibling reading of 50s the brick schedule moves
to `now + normalize(50)`; with an unknown sibling reading it stays at 200. -/
theorem run_session_sibling_update_witness :
    (runCleanStep ⟨0, none, some 50, 0, none, none, 0, none⟩ ⟨0, 100, 200⟩).nextBrickAt =
      0 + 0 + normalize_wait (some 50) BRICK_DEFAULT_INTERVAL_SEC ∧
    (runCleanStep ⟨0, none, none, 0, none, none, 0, none⟩ ⟨0, 100, 200⟩).nextBrickAt = 200 :=
  ⟨(run_session_sibling_update ⟨0, none, some 50, 0, none, none, 0, none⟩ ⟨0, 100, 200⟩).1
      50 rfl,
   (run_session_sibling_update ⟨0, none, none, 0, none, none, 0, none⟩ ⟨0, 100, 200⟩).2.1 rfl⟩

/-! ## Claim about the drop drain (C8) -/

/-- Once the first item's click fails and the item stays in the list, every
remaining iteration re-targets it and fails again. -/
theorem clickDropsLoop_stall (bad : DropItem) (hb : bad.clickOk = false) :
    ∀ (n : Nat) (rest : List DropItem), clickDropsLoop n (bad :: rest) = (bad :: rest, [])
  | 0, _ => rfl
  | n + 1, rest => by
    simp [clickDropsLoop, hb, clickDropsLoop_stall bad hb n rest]

/-- When every click succeeds, running one iteration per initially-counted
item drains the list completely, capturing each item's text in order. -/
theorem clickDropsLoop_all_ok :
    ∀ items : List DropItem, (∀ it ∈ items, it.clickOk = true) →
      clickDropsLoop items.length items = ([], items.map DropItem.text)
  | [], _ => rfl
  | it :: rest, h => by
    have hit : it.clickOk = true := h it (List.mem_cons_self it rest)
    have ih := clickDropsLoop_all_ok rest (fun x hx => h x (List.mem_cons_of_mem _ hx))
    simp [clickDropsLoop, hit, ih]

/-- A clean prefix is drained, then the drain stalls on the first item whose
click fails, leaving it and everything after it in the list. -/
theorem clickDropsLoop_stall_after_prefix :
    ∀ (good : List DropItem) (bad : DropItem) (rest : List DropItem),
      (∀ it ∈ good, it.clickOk = true) → bad.clickOk = false →
      clickDropsLoop (good ++ bad :: rest).length (good ++ bad :: rest) =
        (bad :: rest, good.map DropItem.text)
  | [], bad, rest, _, hb => by
    simp [clickDropsLoop_stall bad hb]
  | g :: good, bad, rest, hg, hb => by
    have hgit : g.clickOk = true := hg g (List.mem_cons_self g good)
    have ih := clickDropsLoop_stall_after_prefix good bad rest
      (fun x hx => hg x (List.mem_cons_of_mem _ hx)) hb
    simp only [List.length_append, List.length_cons] at ih
    simp [clickDropsLoop, hgit, ih]

/-- C8 counterexample: on the two-item list `[a (click fails), b (click
succeeds)]` the drain exits with the list still non-empty and item `b` never
clicked — refuting "continues until the list reports empty" and "a failed
item is skipped and the loop proceeds to the next item". -/
theorem click_drops_counterexample :
    (click_drops [⟨"a", false⟩, ⟨"b", true⟩]).1 ≠ [] ∧
    "b" ∉ (click_drops [⟨"a", false⟩, ⟨"b", true⟩]).2 := by
  decide

/-- C8 amended: the drain counts the list once and performs exactly that many
iterations, each targeting the current first item and tolerating an
individual click failure without aborting; when every click succeeds this
drains the list to empty (texts captured in order), but a failing first item
is re-targeted rather than skipped, so the drain stalls on it and later items
are never reached. -/
theorem click_drops_drain (items good rest : List DropItem) (bad : DropItem) :
    ((∀ it ∈ items, it.clickOk = true) →
      click_drops items = ([], items.map DropItem.text)) ∧
    ((∀ it ∈ good, it.clickOk = true) → bad.clickOk = false →
      click_drops (good ++ bad :: rest) = (bad :: rest, good.map DropItem.text)) :=
  ⟨fun h => clickDropsLoop_all_ok items h,
   fun hg hb => clickDropsLoop_stall_after_prefix good bad rest hg hb⟩

/-- C8 witness for the amended claim: an all-successful list is fully
drained; a list with a failing first item keeps its tail unclicked. -/
theorem click_drops_drain_witness :
    click_drops [⟨"x", true⟩, ⟨"y", true⟩] = ([], ["x", "y"]) ∧
    click_drops [⟨"x", true⟩, ⟨"a", false⟩, ⟨"b", true⟩] =
      ([⟨"a", false⟩, ⟨"b", true⟩], ["x"]) :=
  ⟨(click_drops_drain [⟨"x", true⟩, ⟨"y", true⟩] [] [] ⟨"", true⟩).1 (by decide),
   (click_drops_drain [] [⟨"x", true⟩] [⟨"b", true⟩] ⟨"a", false⟩).2 (by decide) rfl⟩

end AutoMowan

namespace AutoPlant

/-! ## Claim about the harvest executor (C9) -/

/-- `is_mature` holds exactly when the ready-timestamp attribute is present
and at or before the current time. -/
theorem is_mature_iff (now : Int) (p : Plot) :
    is_mature now p = true ↔ ∃ t, p.harvestTime = some t ∧ t ≤ now := by
  cases hp : p.harvestTime <;> simp [is_mature, hp]

/-- The collection pass is a filter by `is_mature`. -/
theorem collectMature_eq_filter (now : Int) (plots : List Plot) :
    collectMature now plots = plots.filter (is_mature now) := by
  induction plots with
  | nil => rfl
  | cons p ps ih => cases h : is_mature now p <;> simp [collectMature, List.filter_cons, h, ih]

/-- The click pass attempts every collected plot, whatever the outcomes of
the earlier clicks. -/
theorem clickEach_eq_map (plots : List Plot) :
    clickEach plots = plots.map Plot.clickOk := by
  induction plots with
  | nil => rfl
  | cons p ps ih => simp [clickEach, ih]

/-- C9: the harvest executor clicks exactly the planted entries whose
ready-timestamp attribute is present and at or before the current time
(membership characterization), returns the count of those mature entries,
and attempts one click per mature entry independently of the other clicks'
outcomes (the attempt sequence is the `clickOk` map, of full length). -/
theorem harvest_exactly_mature (now : Int) (plots : List Plot) :
    (∀ p, p ∈ plots →
      (p ∈ collectMature now plots ↔ ∃ t, p.harvestTime = some t ∧ t ≤ now)) ∧
    (harvest_mature_plots now plots).1 = (collectMature now plots).length ∧
    (harvest_mature_plots now plots).2 = (collectMature now plots).map Plot.clickOk ∧
    ((harvest_mature_plots now plots).2).length = (harvest_mature_plots now plots).1 := by
  refine ⟨?_, rfl, clickEach_eq_map _, ?_⟩
  · intro p hp
    rw [collectMature_eq_filter, List.mem_filter, is_mature_iff]
    simp [hp]
  · show (clickEach (collectMature now plots)).length = (collectMature now plots).length
    rw [clickEach_eq_map]
    exact List.length_map _ _

/-- C9 witness: at time 10, of the plots `(ts 5, clickable)`, `(no ts)`,
`(ts 100)` exactly the first is mature; the count is 1 and one click is
attempted. -/
theorem harvest_exactly_mature_witness :
    ((⟨some 5, true⟩ : Plot) ∈
      collectMature 10 [⟨some 5, true⟩, ⟨none, true⟩, ⟨some 100, false⟩]) ∧
    (harvest_mature_plots 10 [⟨some 5, true⟩, ⟨none, true⟩, ⟨some 100, false⟩]).1 =
      (collectMature 10 [⟨some 5, true⟩, ⟨none, true⟩, ⟨some 100, false⟩]).length :=
  ⟨((harvest_exactly_mature 10 [⟨some 5, true⟩, ⟨none, true⟩, ⟨some 100, false⟩]).1
      ⟨some 5, true⟩ (by decide)).mpr ⟨5, rfl, by decide⟩,
   (harvest_exactly_mature 10 [⟨some 5, true⟩, ⟨none, true⟩, ⟨some 100, false⟩]).2.1⟩

/-! ## Claim about `run_once`'s scheduling (C10) -/

/-- C10: with a strictly-future next harvest timestamp the returned wait is
`max(next_ts - now + 5, 10)` — the `-5` safety buffer extends the wait five
seconds past the harvest time — and with no future timestamp it is the
300-second fallback.  `now` is the wall clock in whole seconds. -/
theorem run_once_wait_eq (next_ts now : Int) :
    (next_ts ≠ 0 → 1000 * now < next_ts * 1000 →
      run_once_wait next_ts (1000 * now) = max (next_ts - now + 5) 10) ∧
    (next_ts = 0 ∨ next_ts * 1000 ≤ 1000 * now →
      run_once_wait next_ts (1000 * now) = 300) := by
  constructor
  · intro h0 hf
    rw [run_once_wait, if_pos ⟨h0, hf⟩]
    simp only [SAFETY_BUFFER_SEC, MIN_WAKE_INTERVAL_SEC]
    rcases le_total (next_ts - now + 5) 10 with h | h
    · rw [max_eq_right (by linarith), max_eq_right h]
      decide
    · rw [max_eq_left (by linarith), max_eq_left h]
      omega
  · intro h
    rw [run_once_wait, if_neg (by omega)]
    decide

/-- C10 witness: harvest at t=100 seen at t=0 waits 105s; no future harvest
waits 300s. -/
theorem run_once_wait_eq_witness :
    run_once_wait 100 (1000 * 0) = max (100 - 0 + 5) 10 ∧
    run_once_wait 0 (1000 * 0) = 300 :=
  ⟨(run_once_wait_eq 100 0).1 (by decide) (by decide),
   (run_once_wait_eq 0 0).2 (Or.inl rfl)⟩

end AutoPlant

namespace AutoMowan

/-! ## Claim about the strict countdown match (C2) -/

/-- A digit character is not whitespace (needed because `strip` only removes
whitespace and hence cannot break a countdown substring). -/
theorem digit_not_ws (c : Char) (h : c.isDigit = true) : c.isWhitespace = false := by
  by_contra hw
  rw [Bool.not_eq_false] at hw
  simp only [Char.isWhitespace, Bool.or_eq_true, decide_eq_true_eq] at hw
  rcases hw with ((h1 | h1) | h1) | h1 <;> subst h1 <;> exact absurd h (by decide)

/-- `dropWhile isWhitespace` keeps any suffix that starts at a non-whitespace
character intact (it only removes characters from the left of it). -/
theorem dropWhile_keep (c : Char) (rest : List Char) (hc : c.isWhitespace = false) :
    ∀ pre : List Char,
      ∃ pre', (pre ++ c :: rest).dropWhile Char.isWhitespace = pre' ++ c :: rest
  | [] => ⟨[], by simp [List.dropWhile_cons, hc]⟩
  | a :: pre => by
    cases ha : a.isWhitespace with
    | true =>
      obtain ⟨p', hp⟩ := dropWhile_keep c rest hc pre
      exact ⟨p', by simp [List.dropWhile_cons, ha, hp]⟩
    | false => exact ⟨a :: pre, by simp [List.dropWhile_cons, ha]⟩

/-- `strip` preserves any interior substring whose first and last characters
are not whitespace: only surrounding text is removed. -/
theorem strip_mem (c e : Char) (mid : List Char)
    (hc : c.isWhitespace = false) (he : e.isWhitespace = false) (pre post : List Char) :
    ∃ p q, pyStrip (pre ++ (c :: (mid ++ [e])) ++ post) = p ++ (c :: (mid ++ [e])) ++ q := by
  have e1 : pre ++ (c :: (mid ++ [e])) ++ post = pre ++ c :: (mid ++ e :: post) := by
    simp
  obtain ⟨p1, h1⟩ := dropWhile_keep c (mid ++ e :: post) hc pre
  have e2 : (p1 ++ c :: (mid ++ e :: post)).reverse =
      post.reverse ++ e :: (mid.reverse ++ c :: p1.reverse) := by
    simp
  obtain ⟨p2, h2⟩ := dropWhile_keep e (mid.reverse ++ c :: p1.reverse) he post.reverse
  refine ⟨p1, p2.reverse, ?_⟩
  rw [pyStrip, e1, h1, e2, h2]
  simp

/-- The regex matches at the head of any text that starts with a two-digit
`HH:MM:SS` pattern, capturing its groups. -/
theorem matchAt_hms2 (d1 d2 m1 m2 s1 s2 : Char) (rest : List Char)
    (h1 : d1.isDigit = true) (h2 : d2.isDigit = true) (h3 : m1.isDigit = true)
    (h4 : m2.isDigit = true) (h5 : s1.isDigit = true) (h6 : s2.isDigit = true) :
    matchAt (d1 :: d2 :: ':' :: m1 :: m2 :: ':' :: s1 :: s2 :: rest) =
      some (10 * digitVal d1 + digitVal d2, 10 * digitVal m1 + digitVal m2,
            10 * digitVal s1 + digitVal s2) := by
  simp [matchAt, match2, h1, h2, h3, h4, h5, h6]

/-- The regex matches at the head of any text that starts with a one-digit
`H:MM:SS` pattern (the greedy two-digit attempt fails on the colon). -/
theorem matchAt_hms1 (d1 m1 m2 s1 s2 : Char) (rest : List Char)
    (h1 : d1.isDigit = true) (h3 : m1.isDigit = true) (h4 : m2.isDigit = true)
    (h5 : s1.isDigit = true) (h6 : s2.isDigit = true) :
    matchAt (d1 :: ':' :: m1 :: m2 :: ':' :: s1 :: s2 :: rest) =
      some (digitVal d1, 10 * digitVal m1 + digitVal m2, 10 * digitVal s1 + digitVal s2) := by
  have hcolon : (':' : Char).isDigit = false := by decide
  cases rest with
  | nil =>
    have h2none : match2 [d1, ':', m1, m2, ':', s1, s2] = none := rfl
    simp [matchAt, h2none, match1, h1, h3, h4, h5, h6]
  | cons a rest' =>
    simp [matchAt, match2, match1, hcolon, h1, h3, h4, h5, h6]

/-- A match anywhere in the text makes the left-to-right scan of
`COUNTDOWN_RE.search` succeed (possibly at an earlier position). -/
theorem searchCountdown_of_matchAt (cs : List Char) (r : Nat × Nat × Nat)
    (h : matchAt cs = some r) :
    ∀ pre : List Char, ∃ r', searchCountdown (pre ++ cs) = some r'
  | [] => by
    cases cs with
    | nil => simp [matchAt, match2, match1] at h
    | cons c cs' => exact ⟨r, by simp [searchCountdown, h]⟩
  | a :: pre => by
    obtain ⟨r', hr⟩ := searchCountdown_of_matchAt cs r h pre
    cases hm : matchAt (a :: (pre ++ cs)) with
    | some r2 => exact ⟨r2, by simp [searchCountdown, hm]⟩
    | none => exact ⟨r', by simp [searchCountdown, hm, hr]⟩

/-- C2: any input that contains a valid `H:MM:SS` / `HH:MM:SS` substring,
anywhere in arbitrary surrounding text, makes the strict search succeed, and
the parser returns exactly `h*3600 + m*60 + s` for the matched hours,
minutes and seconds. -/
theorem parse_strict_match (cs pre v post : List Char) (hv : ValidHMS v)
    (hd : cs = pre ++ v ++ post) :
    ∃ h m s, searchCountdown (pyStrip cs) = some (h, m, s) ∧
      parse_countdown_text (some cs) = some (h * 3600 + m * 60 + s) := by
  subst hd
  rcases hv with ⟨d1, d2, m1, m2, s1, s2, hveq, h1, h2, h3, h4, h5, h6⟩ |
    ⟨d1, m1, m2, s1, s2, hveq, h1, h3, h4, h5, h6⟩
  · subst hveq
    have hne : pre ++ [d1, d2, ':', m1, m2, ':', s1, s2] ++ post ≠ [] := by simp
    obtain ⟨p, q, hstrip⟩ :=
      strip_mem d1 s2 [d2, ':', m1, m2, ':', s1] (digit_not_ws d1 h1) (digit_not_ws s2 h6)
        pre post
    have hm := matchAt_hms2 d1 d2 m1 m2 s1 s2 q h1 h2 h3 h4 h5 h6
    obtain ⟨⟨h, m, s⟩, hr⟩ := searchCountdown_of_matchAt _ _ hm p
    have hfind : searchCountdown
        (pyStrip (pre ++ [d1, d2, ':', m1, m2, ':', s1, s2] ++ post)) = some (h, m, s) := by
      rw [show (pre ++ [d1, d2, ':', m1, m2, ':', s1, s2] ++ post : List Char) =
        pre ++ (d1 :: ([d2, ':', m1, m2, ':', s1] ++ [s2])) ++ post from by simp, hstrip]
      simpa using hr
    exact ⟨h, m, s, hfind, by simp only [parse_countdown_text, if_neg hne, hfind]⟩
  · subst hveq
    have hne : pre ++ [d1, ':', m1, m2, ':', s1, s2] ++ post ≠ [] := by simp
    obtain ⟨p, q, hstrip⟩ :=
      strip_mem d1 s2 [':', m1, m2, ':', s1] (digit_not_ws d1 h1) (digit_not_ws s2 h6)
        pre post
    have hm := matchAt_hms1 d1 m1 m2 s1 s2 q h1 h3 h4 h5 h6
    obtain ⟨⟨h, m, s⟩, hr⟩ := searchCountdown_of_matchAt _ _ hm p
    have hfind : searchCountdown
        (pyStrip (pre ++ [d1, ':', m1, m2, ':', s1, s2] ++ post)) = some (h, m, s) := by
      rw [show (pre ++ [d1, ':', m1, m2, ':', s1, s2] ++ post : List Char) =
        pre ++ (d1 :: ([':', m1, m2, ':', s1] ++ [s2])) ++ post from by simp, hstrip]
      simpa using hr
    exact ⟨h, m, s, hfind, by simp only [parse_countdown_text, if_neg hne, hfind]⟩

/-- C2 witness: `"剩余 01:02:03 请稍候"` contains the valid substring
`01:02:03` and parses to `1*3600 + 2*60 + 3 = 3723`. -/
theorem parse_strict_match_witness :
    parse_countdown_text (some ("剩余 01:02:03 请稍候".toList)) = some 3723 := by
  obtain ⟨h, m, s, hsearch, hparse⟩ :=
    parse_strict_match ("剩余 01:02:03 请稍候".toList) ("剩余 ".toList)
      ['0', '1', ':', '0', '2', ':', '0', '3'] (" 请稍候".toList)
      (Or.inl ⟨'0', '1', '0', '2', '0', '3', rfl,
        by decide, by decide, by decide, by decide, by decide, by decide⟩)
      (by decide)
  have hs : searchCountdown (pyStrip ("剩余 01:02:03 请稍候".toList)) = some (1, 2, 3) := by
    decide
  rw [hsearch] at hs
  simp only [Option.some.injEq, Prod.mk.injEq] at hs
  obtain ⟨rfl, rfl, rfl⟩ := hs
  simpa using hparse

/-! ## Claim about scheduler liveness (C1) -/

/-- C1: for any state whose two next-due timestamps satisfy `t1 < t2` —
whichever task is the earlier one — with the active task's recheck interval
larger than `t2 - now`, the loop never takes the recheck branch and never
runs the later task's session: it either runs the earlier task's session at
once, or performs a single remaining-time sleep of `t1 - now ≥ 1` seconds
and then runs that session on the next iteration — so the task due at `t1`
is serviced before the task due at `t2`, and every sleep performed on the
way lasts at least 1 second (no busy-looping).  First conjunct: the cleaning
task is the earlier one (`rc` active); second conjunct: the brick task is
the earlier one (`rb` active). -/
theorem scheduler_services_earlier_first (rc rb : Int) (env env2 : SchedEnv)
    (s : SchedState) :
    (s.nextCleanAt < s.nextBrickAt → s.nextBrickAt - s.now < rc →
      (∀ d, (schedStep rc rb env s).2 ≠ SchedAction.sleepRecheck d) ∧
      (schedStep rc rb env s).2 ≠ SchedAction.runBrick ∧
      (∀ d, (schedStep rc rb env s).2 = SchedAction.sleepRemain d → 1 ≤ d) ∧
      ((schedStep rc rb env s).2 = SchedAction.runClean ∨
        ((schedStep rc rb env s).2 = SchedAction.sleepRemain (s.nextCleanAt - s.now) ∧
         (schedStep rc rb env2 (schedStep rc rb env s).1).2 = SchedAction.runClean))) ∧
    (s.nextBrickAt < s.nextCleanAt → s.nextCleanAt - s.now < rb →
      (∀ d, (schedStep rc rb env s).2 ≠ SchedAction.sleepRecheck d) ∧
      (schedStep rc rb env s).2 ≠ SchedAction.runClean ∧
      (∀ d, (schedStep rc rb env s).2 = SchedAction.sleepRemain d → 1 ≤ d) ∧
      ((schedStep rc rb env s).2 = SchedAction.runBrick ∨
        ((schedStep rc rb env s).2 = SchedAction.sleepRemain (s.nextBrickAt - s.now) ∧
         (schedStep rc rb env2 (schedStep rc rb env s).1).2 = SchedAction.runBrick))) := by
  constructor
  · intro h1 h2
    have htc : s.nextCleanAt ≤ s.nextBrickAt := le_of_lt h1
    by_cases hr : s.nextCleanAt - s.now ≤ 0
    · have hstep : schedStep rc rb env s = (runCleanStep env s, SchedAction.runClean) := by
        simp [schedStep, htc, hr]
      rw [hstep]
      refine ⟨fun d => by simp, by simp, fun d hd => by simp at hd, Or.inl rfl⟩
    · have hnlt : ¬ rc < s.nextCleanAt - s.now := by omega
      have hmax : max (s.nextCleanAt - s.now) 1 = s.nextCleanAt - s.now :=
        max_eq_left (by omega)
      have hstep : schedStep rc rb env s =
          ({ s with now := s.now + (s.nextCleanAt - s.now) },
           SchedAction.sleepRemain (s.nextCleanAt - s.now)) := by
        simp [schedStep, htc, hr, hnlt, hmax]
      rw [hstep]
      refine ⟨fun d => by simp, by simp, fun d hd => ?_, Or.inr ⟨rfl, ?_⟩⟩
      · simp only [SchedAction.sleepRemain.injEq] at hd
        omega
      · have hstep2 : schedStep rc rb env2
            ({ s with now := s.now + (s.nextCleanAt - s.now) }) =
            (runCleanStep env2 ({ s with now := s.now + (s.nextCleanAt - s.now) }),
             SchedAction.runClean) := by
          simp [schedStep, htc]
        rw [hstep2]
  · intro h1 h2
    have hntc : ¬ s.nextCleanAt ≤ s.nextBrickAt := not_le.mpr h1
    by_cases hr : s.nextBrickAt - s.now ≤ 0
    · have hstep : schedStep rc rb env s = (runBrickStep env s, SchedAction.runBrick) := by
        simp [schedStep, hntc, hr]
      rw [hstep]
      refine ⟨fun d => by simp, by simp, fun d hd => by simp at hd, Or.inl rfl⟩
    · have hnlt : ¬ rb < s.nextBrickAt - s.now := by omega
      have hmax : max (s.nextBrickAt - s.now) 1 = s.nextBrickAt - s.now :=
        max_eq_left (by omega)
      have hstep : schedStep rc rb env s =
          ({ s with now := s.now + (s.nextBrickAt - s.now) },
           SchedAction.sleepRemain (s.nextBrickAt - s.now)) := by
        simp [schedStep, hntc, hr, hnlt, hmax]
      rw [hstep]
      refine ⟨fun d => by simp, by simp, fun d hd => ?_, Or.inr ⟨rfl, ?_⟩⟩
      · simp only [SchedAction.sleepRemain.injEq] at hd
        omega
      · have hstep2 : schedStep rc rb env2
            ({ s with now := s.now + (s.nextBrickAt - s.now) }) =
            (runBrickStep env2 ({ s with now := s.now + (s.nextBrickAt - s.now) }),
             SchedAction.runBrick) := by
          simp [schedStep, hntc]
        rw [hstep2]

/-- C1 witness: at `now = 0` with a 3600/21600-second recheck interval, a
cleaning task due at 5 before a brick task due at 10 sleeps the remaining 5
seconds and then runs the cleaning session; symmetrically, a brick task due
at 5 before a cleaning task due at 10 sleeps 5 seconds and then runs the
brick session. -/
theorem scheduler_services_earlier_first_witness :
    ((schedStep 3600 21600 ⟨0, none, none, 0, none, none, 0, none⟩ ⟨0, 5, 10⟩).2 =
        SchedAction.runClean ∨
      ((schedStep 3600 21600 ⟨0, none, none, 0, none, none, 0, none⟩ ⟨0, 5, 10⟩).2 =
          SchedAction.sleepRemain (5 - 0) ∧
       (schedStep 3600 21600 ⟨0, none, none, 0, none, none, 0, none⟩
          (schedStep 3600 21600 ⟨0, none, none, 0, none, none, 0, none⟩ ⟨0, 5, 10⟩).1).2 =
          SchedAction.runClean)) ∧
    ((schedStep 3600 21600 ⟨0, none, none, 0, none, none, 0, none⟩ ⟨0, 10, 5⟩).2 =
        SchedAction.runBrick ∨
      ((schedStep 3600 21600 ⟨0, none, none, 0, none, none, 0, none⟩ ⟨0, 10, 5⟩).2 =
          SchedAction.sleepRemain (5 - 0) ∧
       (schedStep 3600 21600 ⟨0, none, none, 0, none, none, 0, none⟩
          (schedStep 3600 21600 ⟨0, none, none, 0, none, none, 0, none⟩ ⟨0, 10, 5⟩).1).2 =
          SchedAction.runBrick)) :=
  ⟨((scheduler_services_earlier_first 3600 21600
      ⟨0, none, none, 0, none, none, 0, none⟩ ⟨0, none, none, 0, none, none, 0, none⟩
      ⟨0, 5, 10⟩).1 (by decide) (by decide)).2.2.2,
   ((scheduler_services_earlier_first 3600 21600
      ⟨0, none, none, 0, none, none, 0, none⟩ ⟨0, none, none, 0, none, none, 0, none⟩
      ⟨0, 10, 5⟩).2 (by decide) (by decide)).2.2.2⟩

end AutoMowan
